import Mathlib

/-!
Verification development for the pv-data subscription ingestion pipeline.

This file gives a shallow embedding of the core data model and operations of
the pv-data repository (record types, SQL upsert semantics, partition
lifecycle management, the Polygon provider's reconciliation and throttling
logic, and the library summary queries), and proves properties of those
definitions.

Modelling conventions:
* `time.Time` values are modelled as `Int` (seconds since the Unix epoch);
  only comparisons and differences of times occur in the modelled code, so
  this is faithful.
* Postgres `NUMERIC` / Go `float64` payload fields are modelled as `ℚ`;
  the modelled code only stores and copies these values, never computes
  with them.
* A SQL table is a list of rows; `INSERT ... ON CONFLICT ON CONSTRAINT
  <tbl>_pkey DO UPDATE SET ...` is modelled by `sqlUpsert`, which updates
  the conflicting rows (matching on the primary-key columns) or appends a
  new row.
-/

namespace PvData

/-- Go `time.Time`, as seconds since the Unix epoch. -/
abbrev Timestamp := Int

/-- Go `data.AssetType` is a string type (`type AssetType string`). -/
abbrev AssetType := String

/-- `data.UnknownAsset AssetType = "Unknown"` from `src/data/asset.go`. -/
def UnknownAsset : AssetType := "Unknown"

/-! ## SQL upsert semantics

`INSERT INTO t (...) VALUES (...) ON CONFLICT ON CONSTRAINT t_pkey DO UPDATE
SET ...`: if a row conflicting on the primary-key constraint exists it is
updated in place (only the columns listed in the `DO UPDATE SET` clause
change), otherwise the new row is inserted. -/

/-- Generic upsert on a table modelled as a list of rows: `conflict` decides
whether an existing row conflicts with the incoming row on the primary-key
constraint, `update` applies the `DO UPDATE SET` column assignments, and
`newRow` is the row built from the `INSERT` column list. -/
def sqlUpsert {ρ : Type} (conflict : ρ → Bool) (update : ρ → ρ) (newRow : ρ)
    (tbl : List ρ) : List ρ :=
  if tbl.any conflict then
    tbl.map (fun r => if conflict r then update r else r)
  else
    tbl ++ [newRow]

theorem sqlUpsert_nil {ρ : Type} (c : ρ → Bool) (u : ρ → ρ) (n : ρ) :
    sqlUpsert c u n [] = [n] := by
  simp [sqlUpsert]

theorem sqlUpsert_idem {ρ : Type} (c : ρ → Bool) (u : ρ → ρ) (n : ρ)
    (tbl : List ρ)
    (hcu : ∀ r, c (u r) = c r) (huu : ∀ r, u (u r) = u r)
    (hcn : c n = true) (hun : u n = n) :
    sqlUpsert c u n (sqlUpsert c u n tbl) = sqlUpsert c u n tbl := by
  by_cases h : tbl.any c = true
  · have hany : (tbl.map (fun r => if c r then u r else r)).any c = true := by
      rcases List.any_eq_true.mp h with ⟨r, hr, hcr⟩
      apply List.any_eq_true.mpr
      refine ⟨if c r then u r else r, List.mem_map_of_mem _ hr, ?_⟩
      simp [hcr, hcu]
    have hinner : sqlUpsert c u n tbl =
        tbl.map (fun r => if c r then u r else r) := by
      rw [sqlUpsert, if_pos h]
    rw [hinner, sqlUpsert, if_pos hany, List.map_map]
    apply List.map_congr_left
    intro r _
    by_cases hr : c r = true
    · simp [Function.comp, hr, hcu, huu]
    · simp only [Bool.not_eq_true] at hr
      simp [Function.comp, hr]
  · have hall : ∀ r ∈ tbl, c r = false := by
      intro r hr
      by_contra hc
      simp only [Bool.not_eq_false] at hc
      exact h (List.any_eq_true.mpr ⟨r, hr, hc⟩)
    have hfirst : sqlUpsert c u n tbl = tbl ++ [n] := by
      rw [sqlUpsert, if_neg h]
    have hany : (tbl ++ [n]).any c = true :=
      List.any_eq_true.mpr ⟨n, by simp, hcn⟩
    rw [hfirst, sqlUpsert, if_pos hany, List.map_append]
    have h1 : tbl.map (fun r => if c r then u r else r) = tbl := by
      have hmap : tbl.map (fun r => if c r then u r else r) = tbl.map id := by
        apply List.map_congr_left
        intro r hr
        simp [hall r hr]
      simpa using hmap
    have h2 : [n].map (fun r => if c r then u r else r) = [n] := by
      simp [hcn, hun]
    rw [h1, h2]

theorem sqlUpsert_keys {ρ κ : Type} (c : ρ → Bool) (u : ρ → ρ) (n : ρ)
    (tbl : List ρ) (key : ρ → κ) (hk : ∀ r, key (u r) = key r) :
    (sqlUpsert c u n tbl).map key =
      if tbl.any c then tbl.map key else tbl.map key ++ [key n] := by
  by_cases h : tbl.any c = true
  · rw [sqlUpsert, if_pos h, if_pos h, List.map_map]
    apply List.map_congr_left
    intro r _
    by_cases hr : c r = true
    · simp [Function.comp, hr, hk]
    · simp only [Bool.not_eq_true] at hr
      simp [Function.comp, hr]
  · rw [sqlUpsert, if_neg h, if_neg h, List.map_append]
    simp

/-! ## Record model (`src/data`)

The record structures mirror the Go structs; the row structures mirror the
column lists of the corresponding `INSERT` statements.  Binary branding
fields (`Icon`, `Logo` and their mime types) are omitted from the `Asset`
model: they are never persisted by `Asset.Save` (it stores empty
`icon_url` / `logo_url` strings instead). -/

/-- `data.Eod` (`src/unnamed/part_006`): an end-of-day quote. -/
structure Eod where
  Date : Timestamp
  Ticker : String
  CompositeFigi : String
  Open : ℚ
  High : ℚ
  Low : ℚ
  Close : ℚ
  Volume : ℚ
  Dividend : ℚ
  Split : ℚ
deriving DecidableEq

/-- A row of an `eod` data table: the columns of the `INSERT` in
`Eod.SaveDB`.  The `eod` schema declares `PRIMARY KEY (composite_figi,
event_date)`.  (`open` is a Lean keyword, so that column is named
`openPrice` here.) -/
structure EodRow where
  ticker : String
  composite_figi : String
  event_date : Timestamp
  openPrice : ℚ
  high : ℚ
  low : ℚ
  close : ℚ
  volume : ℚ
  dividend : ℚ
  split_factor : ℚ
deriving DecidableEq

/-- Conflict test for `ON CONFLICT ON CONSTRAINT <tbl>_pkey` on an `eod`
table: the primary key is `(composite_figi, event_date)`. -/
def eodConflict (eod : Eod) (r : EodRow) : Bool :=
  r.composite_figi == eod.CompositeFigi && r.event_date == eod.Date

/-- The `DO UPDATE SET` clause of `Eod.SaveDB`: sets `open`, `high`, `low`,
`close`, `volume`, `dividend` and `split_factor` from `EXCLUDED`; note that
`ticker` is not in the update list. -/
def eodApplyUpdate (eod : Eod) (r : EodRow) : EodRow :=
  { r with
    openPrice := eod.Open, high := eod.High, low := eod.Low,
    close := eod.Close, volume := eod.Volume,
    dividend := eod.Dividend, split_factor := eod.Split }

/-- The `VALUES` row of the `INSERT` in `Eod.SaveDB`. -/
def eodInsertRow (eod : Eod) : EodRow :=
  { ticker := eod.Ticker, composite_figi := eod.CompositeFigi,
    event_date := eod.Date, openPrice := eod.Open, high := eod.High,
    low := eod.Low, close := eod.Close, volume := eod.Volume,
    dividend := eod.Dividend, split_factor := eod.Split }

/-- The upsert executed by `Eod.SaveDB` on success. -/
def eodUpsert (tbl : List EodRow) (eod : Eod) : List EodRow :=
  sqlUpsert (eodConflict eod) (eodApplyUpdate eod) (eodInsertRow eod) tbl

/-- `data.Metric` (`src/unnamed/part_006`). -/
structure Metric where
  Ticker : String
  CompositeFigi : String
  EventDate : Timestamp
  MarketCap : Int
  EV : Int
  PE : ℚ
  PB : ℚ
  PS : ℚ
  EVtoEBIT : ℚ
  EVtoEBITDA : ℚ
  SP500 : Bool
deriving DecidableEq

/-- A row of a `metric` data table: the columns of the `INSERT` in
`Metric.SaveDB`.  The `metric` schema declares `PRIMARY KEY
(composite_figi, event_date)`. -/
structure MetricRow where
  ticker : String
  composite_figi : String
  event_date : Timestamp
  market_cap : Int
  ev : Int
  pe : ℚ
  pb : ℚ
  ps : ℚ
  ev_ebit : ℚ
  ev_ebitda : ℚ
  sp500 : Bool
deriving DecidableEq

/-- Conflict test for the `metric` primary key `(composite_figi,
event_date)`. -/
def metricConflict (m : Metric) (r : MetricRow) : Bool :=
  r.composite_figi == m.CompositeFigi && r.event_date == m.EventDate

/-- The `DO UPDATE SET` clause of `Metric.SaveDB`: sets `ticker`,
`market_cap`, `ev`, `pe`, `pb`, `ps`, `ev_ebit`, `ev_ebitda` and `sp500`
from `EXCLUDED` (here `ticker` is a non-key column and is updated). -/
def metricApplyUpdate (m : Metric) (r : MetricRow) : MetricRow :=
  { r with
    ticker := m.Ticker, market_cap := m.MarketCap, ev := m.EV,
    pe := m.PE, pb := m.PB, ps := m.PS, ev_ebit := m.EVtoEBIT,
    ev_ebitda := m.EVtoEBITDA, sp500 := m.SP500 }

/-- The `VALUES` row of the `INSERT` in `Metric.SaveDB`. -/
def metricInsertRow (m : Metric) : MetricRow :=
  { ticker := m.Ticker, composite_figi := m.CompositeFigi,
    event_date := m.EventDate, market_cap := m.MarketCap, ev := m.EV,
    pe := m.PE, pb := m.PB, ps := m.PS, ev_ebit := m.EVtoEBIT,
    ev_ebitda := m.EVtoEBITDA, sp500 := m.SP500 }

/-- The upsert executed by `Metric.SaveDB` when the key is non-empty and the
transaction succeeds. -/
def metricUpsert (tbl : List MetricRow) (m : Metric) : List MetricRow :=
  sqlUpsert (metricConflict m) (metricApplyUpdate m) (metricInsertRow m) tbl

/-- `data.Asset` (`src/data/asset.go`), without the binary branding
payloads. -/
structure Asset where
  Ticker : String
  Name : String
  Description : String
  PrimaryExchange : String
  AssetType : AssetType
  CompositeFigi : String
  ShareClassFigi : String
  Active : Bool
  CUSIP : List String
  ISIN : List String
  CIK : String
  SIC : Int
  ListingDate : String
  DelistingDate : String
  Industry : String
  Sector : String
  CorporateUrl : String
  HeadquartersLocation : String
  OtherIdentifiers : List (String × String)
  Tags : List String
  SimilarTickers : List String
  LastUpdated : Timestamp
deriving DecidableEq

/-- `Asset.ID()`: `fmt.Sprintf("%s:%s", asset.Ticker, asset.CompositeFigi)`,
the reconciliation map key. -/
def Asset.ID (asset : Asset) : String :=
  asset.Ticker ++ ":" ++ asset.CompositeFigi

/-- A row of an `asset-description` table: the columns of the `INSERT` in
`Asset.Save`.  The schema declares `PRIMARY KEY (ticker, composite_figi)`.
`Asset.Save` always inserts empty `icon_url`/`logo_url` strings and SQL
`nil` for `listed`/`delisted`. -/
structure AssetRow where
  ticker : String
  composite_figi : String
  share_class_figi : String
  primary_exchange : String
  asset_type : AssetType
  active : Bool
  name : String
  description : String
  corporate_url : String
  sector : String
  industry : String
  icon_url : String
  logo_url : String
  sic_code : Int
  cik : String
  cusips : List String
  isins : List String
  other_identifiers : List (String × String)
  similar_tickers : List String
  tags : List String
  listed : Option Timestamp
  delisted : Option Timestamp
  last_updated : Timestamp
deriving DecidableEq

/-- Conflict test for the `asset-description` primary key
`(ticker, composite_figi)`. -/
def assetConflict (a : Asset) (r : AssetRow) : Bool :=
  r.ticker == a.Ticker && r.composite_figi == a.CompositeFigi

/-- The `DO UPDATE SET` clause of `Asset.Save`: every inserted column except
the key columns and except `share_class_figi` and `asset_type` (which are
inserted but never updated on conflict). -/
def assetApplyUpdate (a : Asset) (r : AssetRow) : AssetRow :=
  { r with
    primary_exchange := a.PrimaryExchange, active := a.Active,
    name := a.Name, description := a.Description,
    corporate_url := a.CorporateUrl, sector := a.Sector,
    industry := a.Industry, icon_url := "", logo_url := "",
    sic_code := a.SIC, cik := a.CIK, cusips := a.CUSIP, isins := a.ISIN,
    other_identifiers := a.OtherIdentifiers,
    similar_tickers := a.SimilarTickers, tags := a.Tags,
    listed := none, delisted := none, last_updated := a.LastUpdated }

/-- The `VALUES` row of the `INSERT` in `Asset.Save` (`iconUrl` and
`logoUrl` are the empty string; `listed`/`delisted` are passed as nil). -/
def assetInsertRow (a : Asset) : AssetRow :=
  { ticker := a.Ticker, composite_figi := a.CompositeFigi,
    share_class_figi := a.ShareClassFigi,
    primary_exchange := a.PrimaryExchange, asset_type := a.AssetType,
    active := a.Active, name := a.Name, description := a.Description,
    corporate_url := a.CorporateUrl, sector := a.Sector,
    industry := a.Industry, icon_url := "", logo_url := "",
    sic_code := a.SIC, cik := a.CIK, cusips := a.CUSIP, isins := a.ISIN,
    other_identifiers := a.OtherIdentifiers,
    similar_tickers := a.SimilarTickers, tags := a.Tags,
    listed := none, delisted := none, last_updated := a.LastUpdated }

/-- The upsert executed by `Asset.Save` on success. -/
def assetUpsert (tbl : List AssetRow) (a : Asset) : List AssetRow :=
  sqlUpsert (assetConflict a) (assetApplyUpdate a) (assetInsertRow a) tbl

/-- C1: for every record kind keyed by a natural business key (`eod` and
`metric` rows keyed by `(composite_figi, event_date)`, asset rows keyed by
`(ticker, composite_figi)`), the upsert updates only non-key columns on
conflict — the key columns of every pre-existing row survive unchanged and
a row is appended only when no conflict exists — and applying the same
record twice equals applying it once; on a fresh table the result is
exactly one row whose key columns equal the record's key and whose
remaining columns are the write's values. -/
theorem upsert_idempotent_and_key_stable :
    (∀ (e : Eod) (tbl : List EodRow),
      eodUpsert (eodUpsert tbl e) e = eodUpsert tbl e ∧
      (eodUpsert tbl e).map (fun r => (r.composite_figi, r.event_date)) =
        (if tbl.any (eodConflict e) then
          tbl.map (fun r => (r.composite_figi, r.event_date))
        else
          tbl.map (fun r => (r.composite_figi, r.event_date)) ++
            [(e.CompositeFigi, e.Date)]) ∧
      eodUpsert [] e =
        [{ ticker := e.Ticker, composite_figi := e.CompositeFigi,
           event_date := e.Date, openPrice := e.Open, high := e.High,
           low := e.Low, close := e.Close, volume := e.Volume,
           dividend := e.Dividend, split_factor := e.Split }]) ∧
    (∀ (m : Metric) (tbl : List MetricRow),
      metricUpsert (metricUpsert tbl m) m = metricUpsert tbl m ∧
      (metricUpsert tbl m).map (fun r => (r.composite_figi, r.event_date)) =
        (if tbl.any (metricConflict m) then
          tbl.map (fun r => (r.composite_figi, r.event_date))
        else
          tbl.map (fun r => (r.composite_figi, r.event_date)) ++
            [(m.CompositeFigi, m.EventDate)]) ∧
      metricUpsert [] m =
        [{ ticker := m.Ticker, composite_figi := m.CompositeFigi,
           event_date := m.EventDate, market_cap := m.MarketCap,
           ev := m.EV, pe := m.PE, pb := m.PB, ps := m.PS,
           ev_ebit := m.EVtoEBIT, ev_ebitda := m.EVtoEBITDA,
           sp500 := m.SP500 }]) ∧
    (∀ (a : Asset) (tbl : List AssetRow),
      assetUpsert (assetUpsert tbl a) a = assetUpsert tbl a ∧
      (assetUpsert tbl a).map (fun r => (r.ticker, r.composite_figi)) =
        (if tbl.any (assetConflict a) then
          tbl.map (fun r => (r.ticker, r.composite_figi))
        else
          tbl.map (fun r => (r.ticker, r.composite_figi)) ++
            [(a.Ticker, a.CompositeFigi)]) ∧
      assetUpsert [] a = [assetInsertRow a]) := by
  refine ⟨?_, ?_, ?_⟩
  · intro e tbl
    refine ⟨?_, ?_, ?_⟩
    · exact sqlUpsert_idem _ _ _ tbl (fun _ => rfl) (fun _ => rfl)
        (by simp [eodConflict, eodInsertRow]) rfl
    · exact sqlUpsert_keys _ _ _ tbl _ (fun _ => rfl)
    · rfl
  · intro m tbl
    refine ⟨?_, ?_, ?_⟩
    · exact sqlUpsert_idem _ _ _ tbl (fun _ => rfl) (fun _ => rfl)
        (by simp [metricConflict, metricInsertRow]) rfl
    · exact sqlUpsert_keys _ _ _ tbl _ (fun _ => rfl)
    · rfl
  · intro a tbl
    refine ⟨?_, ?_, ?_⟩
    · exact sqlUpsert_idem _ _ _ tbl (fun _ => rfl) (fun _ => rfl)
        (by simp [assetConflict, assetInsertRow]) rfl
    · exact sqlUpsert_keys _ _ _ tbl _ (fun _ => rfl)
    · rfl

/-! ## Partition lifecycle (`src/library/subscription.go`)

`managePartitionsWithTransaction` creates, for every partitioned data type,
partitions for fixed legacy ranges and then five-year buckets from 2015 up
to `today.Year() + 1`; `PartitionTables` enumerates partition table names
using the same legacy ranges but one-year buckets from 2015.  Each range
`⟨s, e⟩` is attached to the date interval from `s`-01-01 inclusive to
`e`-01-01 exclusive (`FOR VALUES FROM ('s-01-01') TO ('e-01-01')`). -/

/-- `library.dateRange` from `src/library/subscription.go`. -/
structure DateRange where
  Start : Nat
  End : Nat
deriving DecidableEq

/-- A calendar date (year, month, day). -/
structure PDate where
  year : Nat
  month : Nat
  day : Nat
deriving DecidableEq

/-- Lexicographic `≤` on dates ("on or after" comparison). -/
def PDate.ble (d e : PDate) : Bool :=
  decide (d.year < e.year) ||
    (d.year == e.year &&
      (decide (d.month < e.month) ||
        (d.month == e.month && decide (d.day ≤ e.day))))

/-- Lexicographic `<` on dates ("strictly before" comparison). -/
def PDate.blt (d e : PDate) : Bool :=
  decide (d.year < e.year) ||
    (d.year == e.year &&
      (decide (d.month < e.month) ||
        (d.month == e.month && decide (d.day < e.day))))

/-- A structurally valid calendar date. -/
def PDate.Valid (d : PDate) : Prop :=
  1 ≤ d.month ∧ d.month ≤ 12 ∧ 1 ≤ d.day ∧ d.day ≤ 31

instance (d : PDate) : Decidable d.Valid := by
  unfold PDate.Valid
  infer_instance

/-- Postgres range-partition membership for
`FOR VALUES FROM ('Start-01-01') TO ('End-01-01')`: inclusive lower bound,
exclusive upper bound. -/
def containsDate (r : DateRange) (d : PDate) : Bool :=
  PDate.ble ⟨r.Start, 1, 1⟩ d && PDate.blt d ⟨r.End, 1, 1⟩

/-- Year-interval membership `Start ≤ n < End`. -/
def yearInRange (n : Nat) (r : DateRange) : Bool :=
  decide (r.Start ≤ n) && decide (n < r.End)

theorem containsDate_eq_year (r : DateRange) (d : PDate) (hd : d.Valid) :
    containsDate r d = yearInRange d.year r := by
  obtain ⟨h1, h2, h3, h4⟩ := hd
  apply Bool.eq_iff_iff.mpr
  simp only [containsDate, yearInRange, PDate.ble, PDate.blt,
    Bool.or_eq_true, Bool.and_eq_true, decide_eq_true_eq, beq_iff_eq]
  omega

/-- The bucket loop `for ii := 2015; ii < year; ii += 5` of
`managePartitionsWithTransaction`.  The first argument is fuel bounding the
number of iterations; `year - ii` iterations always suffice because `ii`
strictly increases each step. -/
def fiveYearRangesAux : Nat → Nat → Nat → List DateRange
  | 0, _, _ => []
  | fuel + 1, ii, year =>
    if ii < year then
      ⟨ii, ii + 5⟩ :: fiveYearRangesAux fuel (ii + 5) year
    else []

/-- The bucket loop `for ii := 2015; ii < year; ii++` of
`PartitionTables`, fuelled like `fiveYearRangesAux`. -/
def oneYearRangesAux : Nat → Nat → Nat → List DateRange
  | 0, _, _ => []
  | fuel + 1, ii, year =>
    if ii < year then
      ⟨ii, ii + 1⟩ :: oneYearRangesAux fuel (ii + 1) year
    else []

/-- The legacy ranges hard-coded in both `managePartitionsWithTransaction`
and `PartitionTables`. -/
def legacyRanges : List DateRange :=
  [⟨1900, 2000⟩, ⟨2000, 2005⟩, ⟨2005, 2010⟩, ⟨2010, 2015⟩]

/-- The `dates` list built by `managePartitionsWithTransaction` for one
partitioned data type, given the current year (`today.Year()`); the loop
bound is `year := today.Year() + 1`. -/
def managePartitionRanges (currentYear : Nat) : List DateRange :=
  legacyRanges ++ fiveYearRangesAux (currentYear + 1 - 2015) 2015 (currentYear + 1)

/-- The `dates` list built by `PartitionTables` for one partitioned data
type, given the current year. -/
def partitionTablesRanges (currentYear : Nat) : List DateRange :=
  legacyRanges ++ oneYearRangesAux (currentYear + 1 - 2015) 2015 (currentYear + 1)

/-- `fmt.Sprintf("%s_%d_%d", dataTable, dt.Start, dt.End)`: the partition
table name used by both functions. -/
def partitionTableName (dataTable : String) (r : DateRange) : String :=
  dataTable ++ "_" ++ toString r.Start ++ "_" ++ toString r.End

/-- One entry of a subscription's parallel `DataTypes`/`DataTables` lists:
the data type's `IsPartitioned` flag and the physical table name. -/
structure SubDataType where
  isPartitioned : Bool
  dataTable : String
deriving DecidableEq

/-- The set of partition tables created by
`managePartitionsWithTransaction` across a subscription's data types
(non-partitioned data types are skipped). -/
def managePartitionsTableNames (types : List SubDataType) (currentYear : Nat) :
    List String :=
  (types.map (fun t =>
    if t.isPartitioned then
      (managePartitionRanges currentYear).map (partitionTableName t.dataTable)
    else [])).flatten

/-- The partition table names enumerated by `PartitionTables` (used by
`Subscription.Delete` to drop partitions). -/
def partitionTablesNames (types : List SubDataType) (currentYear : Nat) :
    List String :=
  (types.map (fun t =>
    if t.isPartitioned then
      (partitionTablesRanges currentYear).map (partitionTableName t.dataTable)
    else [])).flatten

theorem fiveYear_countP_zero (fuel ii year n : Nat) (h : n < ii) :
    (fiveYearRangesAux fuel ii year).countP (yearInRange n) = 0 := by
  induction fuel generalizing ii with
  | zero => rfl
  | succ fuel ih =>
    simp only [fiveYearRangesAux]
    split
    · rw [List.countP_cons]
      have hp : yearInRange n ⟨ii, ii + 5⟩ = false := by
        simp only [yearInRange, Bool.and_eq_false_iff, decide_eq_false_iff_not]
        omega
      rw [hp, ih (ii + 5) (by omega)]
      simp
    · rfl

theorem fiveYear_countP_one (fuel ii year n : Nat)
    (hfuel : year - ii ≤ fuel) (h1 : ii ≤ n) (h2 : n < year) :
    (fiveYearRangesAux fuel ii year).countP (yearInRange n) = 1 := by
  induction fuel generalizing ii with
  | zero => omega
  | succ fuel ih =>
    have hlt : ii < year := lt_of_le_of_lt h1 h2
    simp only [fiveYearRangesAux, if_pos hlt, List.countP_cons]
    by_cases hn : n < ii + 5
    · have hp : yearInRange n ⟨ii, ii + 5⟩ = true := by
        simp only [yearInRange, Bool.and_eq_true, decide_eq_true_eq]
        omega
      rw [hp, fiveYear_countP_zero fuel (ii + 5) year n (by omega)]
      simp
    · have hp : yearInRange n ⟨ii, ii + 5⟩ = false := by
        simp only [yearInRange, Bool.and_eq_false_iff, decide_eq_false_iff_not]
        omega
      rw [hp, ih (ii + 5) (by omega) (by omega)]
      simp

/-- C2: after `managePartitionsWithTransaction` runs for a partitioned data
type, every structurally valid calendar date with year between 1900 and the
current year (in particular every event date from 1900-01-01 through the
current date) lies in exactly one of the created partition ranges: no gaps
and no overlaps. -/
theorem managePartitions_partition_coverage (currentYear : Nat) (d : PDate)
    (hvalid : d.Valid) (hlo : 1900 ≤ d.year) (hhi : d.year ≤ currentYear) :
    (managePartitionRanges currentYear).countP (fun r => containsDate r d) = 1 := by
  have hfun : (fun r => containsDate r d) = yearInRange d.year := by
    funext r
    exact containsDate_eq_year r d hvalid
  rw [hfun, managePartitionRanges, List.countP_append]
  by_cases hsplit : d.year < 2015
  · rw [fiveYear_countP_zero _ _ _ _ (by omega)]
    simp only [legacyRanges, List.countP_cons, List.countP_nil, yearInRange]
    split_ifs <;> simp_all <;> omega
  · have hleg : legacyRanges.countP (yearInRange d.year) = 0 := by
      simp only [legacyRanges, List.countP_cons, List.countP_nil, yearInRange]
      split_ifs <;> simp_all <;> omega
    rw [hleg, fiveYear_countP_one (currentYear + 1 - 2015) 2015
      (currentYear + 1) d.year (by omega) (by omega) (by omega)]

/-- Witness for C2 at the current year 2026 and the date 2026-10-11. -/
theorem managePartitions_partition_coverage_witness :
    (PDate.mk 2026 10 11).Valid ∧ 1900 ≤ (PDate.mk 2026 10 11).year ∧
    (PDate.mk 2026 10 11).year ≤ 2026 ∧
    (managePartitionRanges 2026).countP
      (fun r => containsDate r (PDate.mk 2026 10 11)) = 1 :=
  ⟨by decide, by decide, by decide,
    managePartitions_partition_coverage 2026 (PDate.mk 2026 10 11)
      (by decide) (by decide) (by decide)⟩

/-- C5 (counterexample to bucket-width consistency): for a subscription
with one partitioned data type over table `tbl`, at current year 2026 the
set of partition tables created by `managePartitionsWithTransaction`
differs from the set enumerated by `PartitionTables`: the created
partition `tbl_2015_2020` is absent from the enumerated list (which
contains one-year buckets such as `tbl_2015_2016` instead). -/
theorem partition_bucket_width_mismatch :
    "tbl_2015_2020" ∈ managePartitionsTableNames [⟨true, "tbl"⟩] 2026 ∧
    "tbl_2015_2020" ∉ partitionTablesNames [⟨true, "tbl"⟩] 2026 ∧
    "tbl_2015_2016" ∈ partitionTablesNames [⟨true, "tbl"⟩] 2026 ∧
    "tbl_2015_2016" ∉ managePartitionsTableNames [⟨true, "tbl"⟩] 2026 := by
  decide

/-! ## Library summary queries (`src/library/database.go`,
`src/library/summary.go`) -/

/-- One row of the `subscriptions` table, restricted to the columns the
summary queries read. -/
structure SubscriptionRow where
  active : Bool
  total_records : Int
deriving DecidableEq

/-- The SQL issued by `Library.TotalRecords`. -/
def totalRecordsSQL : String :=
  "SELECT coalesce(sum(total_records), 0) FROM subscriptions WHERE active='t'"

/-- The SQL issued by `Library.TotalSecurities`. -/
def totalSecuritiesSQL : String :=
  "SELECT coalesce(sum(total_records), 0) FROM subscriptions WHERE active='t'"

/-- Evaluation of `Library.TotalRecords` on a `subscriptions` table: the
sum of `total_records` over active subscriptions (0 when there are none). -/
def libraryTotalRecords (rows : List SubscriptionRow) : Int :=
  ((rows.filter (fun r => r.active)).map (fun r => r.total_records)).sum

/-- Evaluation of `Library.TotalSecurities` on a `subscriptions` table: its
query likewise sums `total_records` over active subscriptions. -/
def libraryTotalSecurities (rows : List SubscriptionRow) : Int :=
  ((rows.filter (fun r => r.active)).map (fun r => r.total_records)).sum

/-- C9: `Library.TotalSecurities` issues the identical SQL to
`Library.TotalRecords` (a sum of `total_records` over active
subscriptions), so on every database state the two return equal values —
`TotalSecurities` never reflects a separate securities count. -/
theorem totalSecurities_eq_totalRecords :
    totalSecuritiesSQL = totalRecordsSQL ∧
    ∀ rows : List SubscriptionRow,
      libraryTotalSecurities rows = libraryTotalRecords rows :=
  ⟨rfl, fun _ => rfl⟩

/-! ## `SaveDB` control flow (`src/unnamed/part_006`) -/

/-- `Eod.SaveDB`, with the outcomes of `dbConn.Begin` and `tx.Exec` as
explicit parameters: if `Begin` fails its error is returned; otherwise the
upsert is attempted, an `Exec` failure is only logged (the deferred
`tx.Commit` still runs), and the function returns `nil`.  The result is
the table contents after the call paired with the returned error. -/
def eodSaveDB (beginOk execOk : Bool) (eod : Eod) (tbl : List EodRow) :
    List EodRow × Option String :=
  if !beginOk then (tbl, some "begin failed")
  else if execOk then (eodUpsert tbl eod, none)
  else (tbl, none)

/-- `Metric.SaveDB`: records with an empty ticker or composite FIGI are
dropped up front with a `nil` error; otherwise the upsert is attempted and
an `Exec` failure rolls the transaction back and is returned. -/
def metricSaveDB (beginOk execOk : Bool) (m : Metric) (tbl : List MetricRow) :
    List MetricRow × Option String :=
  if m.Ticker == "" || m.CompositeFigi == "" then (tbl, none)
  else if !beginOk then (tbl, some "begin failed")
  else if execOk then (metricUpsert tbl m, none)
  else (tbl, some "exec failed")

/-- C10: whenever the transaction begin succeeds, `Eod.SaveDB` returns
`nil` even when the upsert `Exec` fails (the error is only logged and the
deferred commit still runs), so the caller cannot distinguish a failed EOD
upsert from a successful one through the return value. -/
theorem eodSaveDB_swallows_exec_error :
    ∀ (eod : Eod) (tbl : List EodRow),
      (eodSaveDB true false eod tbl).2 = none ∧
      (eodSaveDB true false eod tbl).2 = (eodSaveDB true true eod tbl).2 ∧
      (eodSaveDB true false eod tbl).1 = tbl :=
  fun _ _ => ⟨rfl, rfl, rfl⟩

/-! ## FIGI enrichment and publishing (`src/figi/openfigi.go`,
`src/provider/polygon.go`) -/

/-- `figi.OpenFigiAsset`: the fields of an openfigi mapping response used
by `Enrich`. -/
structure OpenFigiAsset where
  CompositeFIGI : String
  ShareClassFIGI : String
  SecurityType : String
  SecurityType2 : String
deriving DecidableEq

/-- The asset-type adjustment `figi.Enrich` applies when the asset's type
is unknown, keyed on `SecurityType2`.  In the "Mutual Fund" case the
source's inner `SecurityType` switch is immediately overwritten by the
unconditional `asset.AssetType = data.MutualFund` assignment that follows
it, so the net result of that case is always `"MF"`; the empty and default
cases leave the type unchanged. -/
def figiAdjustType (f : OpenFigiAsset) (t : AssetType) : AssetType :=
  if t == UnknownAsset then
    match f.SecurityType2 with
    | "Partnership Shares" => "CS"
    | "Depositary Receipt" => "ADRC"
    | "Common Stock" => "CS"
    | "Mutual Fund" => "MF"
    | _ => t
  else t

/-- `figi.Enrich` restricted to a single asset, with the openfigi lookup
(`LookupFigi`, keyed by ticker) abstracted as `figiMap`: an asset with an
empty composite FIGI or an unknown type, and no delisting date, takes its
FIGI fields (and possibly its type) from the lookup result; every other
asset is untouched. -/
def enrichWith (figiMap : String → Option OpenFigiAsset) (a : Asset) :
    Asset :=
  if (a.CompositeFigi == "" || a.AssetType == UnknownAsset) &&
      a.DelistingDate == "" then
    match figiMap a.Ticker with
    | some f =>
      { a with
        CompositeFigi := f.CompositeFIGI,
        ShareClassFigi := f.ShareClassFIGI,
        AssetType := figiAdjustType f a.AssetType }
    | none => a
  else a

/-- `strings.ReplaceAll(asset2.Ticker, ".", "/")`. -/
def fixTicker (s : String) : String :=
  String.map (fun ch => if ch == '.' then '/' else ch) s

/-- `polygonAssetFetcher.publish`: enrich the asset, silently drop it when
the composite FIGI is still empty, otherwise emit exactly one observation
carrying a copy of the asset with the ticker fixed to the pv-data standard
(`BRK.A` → `BRK/A`).  The result is the list of assets pushed onto the
observation channel. -/
def polygonPublish (figiMap : String → Option OpenFigiAsset) (a : Asset) :
    List Asset :=
  let enriched := enrichWith figiMap a
  if enriched.CompositeFigi == "" then []
  else [{ enriched with Ticker := fixTicker enriched.Ticker }]

/-- C8 (amended): on the guarded paths — the Polygon asset publisher and
`Metric.SaveDB` — records with an empty business key are silently dropped,
with no error: an asset whose composite FIGI is blank after FIGI
enrichment publishes nothing to the observation channel, and
`Metric.SaveDB` with an empty ticker or composite FIGI leaves the table
unchanged and returns `nil`.  (The guard is per-path, not pipeline-wide:
see `sharadar_blank_figi_published_and_inserted`.) -/
theorem empty_business_key_dropped :
    (∀ (figiMap : String → Option OpenFigiAsset) (a : Asset),
      (enrichWith figiMap a).CompositeFigi = "" →
      polygonPublish figiMap a = []) ∧
    (∀ (beginOk execOk : Bool) (m : Metric) (tbl : List MetricRow),
      m.Ticker = "" ∨ m.CompositeFigi = "" →
      metricSaveDB beginOk execOk m tbl = (tbl, none)) := by
  constructor
  · intro figiMap a h
    simp only [polygonPublish, h]
    simp
  · intro beginOk execOk m tbl h
    rcases h with h | h <;> simp [metricSaveDB, h]

/-- A sample asset whose composite FIGI stays blank under an empty FIGI
lookup. -/
def emptyFigiAsset : Asset :=
  { Ticker := "XYZ", Name := "", Description := "", PrimaryExchange := "",
    AssetType := "CS", CompositeFigi := "", ShareClassFigi := "",
    Active := true, CUSIP := [], ISIN := [], CIK := "", SIC := 0,
    ListingDate := "", DelistingDate := "", Industry := "", Sector := "",
    CorporateUrl := "", HeadquartersLocation := "", OtherIdentifiers := [],
    Tags := [], SimilarTickers := [], LastUpdated := 0 }

/-- A sample metric with an empty ticker. -/
def emptyKeyMetric : Metric :=
  { Ticker := "", CompositeFigi := "BBG000000002", EventDate := 0,
    MarketCap := 0, EV := 0, PE := 0, PB := 0, PS := 0, EVtoEBIT := 0,
    EVtoEBITDA := 0, SP500 := false }

/-- Witness for C8 at a concrete asset and metric. -/
theorem empty_business_key_dropped_witness :
    polygonPublish (fun _ => none) emptyFigiAsset = [] ∧
    metricSaveDB true true emptyKeyMetric [] = ([], none) :=
  ⟨empty_business_key_dropped.1 (fun _ => none) emptyFigiAsset (by decide),
    empty_business_key_dropped.2 true true emptyKeyMetric []
      (Or.inl (by decide))⟩

/-! ### The unguarded asset paths

The empty-business-key guard exists in the Polygon (and Tiingo) asset
publishers and in `Metric.SaveDB`, but not everywhere: the Sharadar
tickers fetch (`src/provider/sharadar_tickers.go`) publishes every
converted asset with no composite-FIGI check, and `Asset.SaveDB`
(`src/data/rating.go`) — the saver the persistence sink invokes for asset
observations — has no empty-key guard either. -/

/-- A row of an `asset-description` table as written by `Asset.SaveDB`
(`src/data/rating.go`): same primary key `(ticker, composite_figi)` as
`Asset.Save`, but no icon/logo-url columns, and `listed`/`delisted` taken
from the asset's date strings (SQL nil when empty). -/
structure AssetDbRow where
  ticker : String
  composite_figi : String
  share_class_figi : String
  primary_exchange : String
  asset_type : AssetType
  active : Bool
  name : String
  description : String
  corporate_url : String
  sector : String
  industry : String
  sic_code : Int
  cik : String
  cusips : List String
  isins : List String
  other_identifiers : List (String × String)
  similar_tickers : List String
  tags : List String
  listed : Option String
  delisted : Option String
  last_updated : Timestamp
deriving DecidableEq

/-- Conflict test of `Asset.SaveDB` on the `(ticker, composite_figi)`
primary key. -/
def assetDbConflict (a : Asset) (r : AssetDbRow) : Bool :=
  r.ticker == a.Ticker && r.composite_figi == a.CompositeFigi

/-- The `DO UPDATE SET` clause of `Asset.SaveDB`: every inserted column
except the key columns, `share_class_figi` and `asset_type`. -/
def assetDbApplyUpdate (a : Asset) (r : AssetDbRow) : AssetDbRow :=
  { r with
    primary_exchange := a.PrimaryExchange, active := a.Active,
    name := a.Name, description := a.Description,
    corporate_url := a.CorporateUrl, sector := a.Sector,
    industry := a.Industry, sic_code := a.SIC, cik := a.CIK,
    cusips := a.CUSIP, isins := a.ISIN,
    other_identifiers := a.OtherIdentifiers,
    similar_tickers := a.SimilarTickers, tags := a.Tags,
    listed := (if a.ListingDate == "" then none else some a.ListingDate),
    delisted :=
      (if a.DelistingDate == "" then none else some a.DelistingDate),
    last_updated := a.LastUpdated }

/-- The `VALUES` row of the `INSERT` in `Asset.SaveDB` (the
`listingDate`/`delistingDate` pointers are nil exactly when the strings
are empty). -/
def assetDbInsertRow (a : Asset) : AssetDbRow :=
  { ticker := a.Ticker, composite_figi := a.CompositeFigi,
    share_class_figi := a.ShareClassFigi,
    primary_exchange := a.PrimaryExchange, asset_type := a.AssetType,
    active := a.Active, name := a.Name, description := a.Description,
    corporate_url := a.CorporateUrl, sector := a.Sector,
    industry := a.Industry, sic_code := a.SIC, cik := a.CIK,
    cusips := a.CUSIP, isins := a.ISIN,
    other_identifiers := a.OtherIdentifiers,
    similar_tickers := a.SimilarTickers, tags := a.Tags,
    listed := (if a.ListingDate == "" then none else some a.ListingDate),
    delisted :=
      (if a.DelistingDate == "" then none else some a.DelistingDate),
    last_updated := a.LastUpdated }

/-- The upsert executed by `Asset.SaveDB` on success. -/
def assetDbUpsert (tbl : List AssetDbRow) (a : Asset) : List AssetDbRow :=
  sqlUpsert (assetDbConflict a) (assetDbApplyUpdate a) (assetDbInsertRow a)
    tbl

/-- `Asset.SaveDB` control flow: no empty-key guard; begin, upsert, and
return the `Exec` error (`nil` on success). -/
def assetSaveDB (beginOk execOk : Bool) (a : Asset)
    (tbl : List AssetDbRow) : List AssetDbRow × Option String :=
  if !beginOk then (tbl, some "begin failed")
  else if execOk then (assetDbUpsert tbl a, none)
  else (tbl, some "exec failed")

/-- The asset-publishing tail of the Sharadar tickers page handler: the
active assets are FIGI-enriched in place (`figi.Enrich(enrichAssets...)`
receives pointers into `allAssets`), then every asset in `allAssets` is
pushed onto the observation channel — with no composite-FIGI guard. -/
def sharadarPublishAssets (figiMap : String → Option OpenFigiAsset)
    (allAssets : List Asset) : List Asset :=
  allAssets.map (fun a => if a.Active then enrichWith figiMap a else a)

/-- A Sharadar-converted active asset (`sharadarTicker.ToAsset` never sets
`CompositeFigi`) whose openfigi lookup finds nothing, so its composite
FIGI is still blank after FIGI enrichment. -/
def unresolvedSharadarAsset : Asset :=
  { Ticker := "ZZZZ", Name := "Zeta Zero Corp", Description := "",
    PrimaryExchange := "New York Stock Exchange", AssetType := "CS",
    CompositeFigi := "", ShareClassFigi := "", Active := true,
    CUSIP := [], ISIN := [], CIK := "", SIC := 0,
    ListingDate := "2010-01-02T00:00:00Z", DelistingDate := "",
    Industry := "", Sector := "", CorporateUrl := "",
    HeadquartersLocation := "",
    OtherIdentifiers := [("sharadar", "199059")], Tags := [],
    SimilarTickers := [], LastUpdated := 100 }

/-- C8 (counterexample to the claim as stated): the empty-business-key
drop is not pipeline-wide.  A Sharadar asset whose composite FIGI is still
blank after FIGI enrichment is nevertheless published to the observation
channel (the Sharadar publish loop has no FIGI guard), and `Asset.SaveDB`
then upserts it into the database with an empty-string key column and
returns `nil` — so a record with an empty business key is both published
and inserted, contradicting the claim's universal statement. -/
theorem sharadar_blank_figi_published_and_inserted :
    (enrichWith (fun _ => none) unresolvedSharadarAsset).CompositeFigi
      = "" ∧
    sharadarPublishAssets (fun _ => none) [unresolvedSharadarAsset] =
      [unresolvedSharadarAsset] ∧
    (assetSaveDB true true unresolvedSharadarAsset []).1 =
      [assetDbInsertRow unresolvedSharadarAsset] ∧
    (assetDbInsertRow unresolvedSharadarAsset).composite_figi = "" ∧
    (assetSaveDB true true unresolvedSharadarAsset []).2 = none := by
  decide

/-! ## Polygon detail-lookup throttling
(`polygonAssetFetcher.filterAssetsByLastUpdated`) -/

/-- A row of the asset table as read by `filterAssetsByLastUpdated`: the
business key and the possibly-NULL `last_updated` column. -/
structure DbAssetEntry where
  ticker : String
  composite_figi : String
  last_updated : Option Timestamp
deriving DecidableEq

/-- `'0001-01-01'::timestamp` (the `COALESCE` fallback), in Unix seconds. -/
def timestamp0001 : Timestamp := -62135596800

/-- `SELECT COALESCE(last_updated, '0001-01-01'::timestamp) ... WHERE
composite_figi=$1 AND ticker=$2 LIMIT 1`; `none` models `pgx.ErrNoRows`. -/
def dbAssetLookup (db : List DbAssetEntry) (figi ticker : String) :
    Option Timestamp :=
  (db.find? (fun r => r.composite_figi == figi && r.ticker == ticker)).map
    (fun r => r.last_updated.getD timestamp0001)

/-- The classification loop of `filterAssetsByLastUpdated`: an asset with
no database row goes to `assetDetail` (first component); an asset whose
database `last_updated` is strictly after the freshly fetched
`LastUpdated` goes to `assetUpdate` (second component); every other asset
is dropped. -/
def splitAssetsByLastUpdated (db : List DbAssetEntry) :
    List Asset → List Asset × List Asset
  | [] => ([], [])
  | a :: rest =>
    let p := splitAssetsByLastUpdated db rest
    match dbAssetLookup db a.CompositeFigi a.Ticker with
    | none => (a :: p.1, p.2)
    | some lastUpdated =>
      if lastUpdated > a.LastUpdated then (p.1, a :: p.2) else p

/-- Insertion into a list sorted ascending by `LastUpdated` — the
comparator of the `slices.SortFunc` call (`-1` when `a` is before `b`). -/
def insertByLastUpdated (a : Asset) : List Asset → List Asset
  | [] => [a]
  | b :: rest =>
    if a.LastUpdated ≤ b.LastUpdated then a :: b :: rest
    else b :: insertByLastUpdated a rest

/-- `slices.SortFunc(assetUpdate, ...)`: sort ascending (oldest first) by
`LastUpdated`.  Go's `slices.SortFunc` is an unstable sort; this models it
as a deterministic insertion sort with the same ordering. -/
def sortByLastUpdated (l : List Asset) : List Asset :=
  l.foldr insertByLastUpdated []

/-- `filterAssetsByLastUpdated`: classify, sort the update candidates
oldest first, cap them at `int(math.Min(float64(len), 100))`, and append
them to the no-database-row assets. -/
def filterAssetsByLastUpdated (db : List DbAssetEntry)
    (assets : List Asset) : List Asset :=
  let p := splitAssetsByLastUpdated db assets
  p.1 ++ (sortByLastUpdated p.2).take (min p.2.length 100)

/-- A fetched asset whose database row (`last_updated = 100`) predates the
freshly fetched `LastUpdated = 200` — a stale asset in the sense of the
throttling policy. -/
def staleFetchedAsset : Asset :=
  { Ticker := "AAPL", Name := "", Description := "",
    PrimaryExchange := "", AssetType := "CS",
    CompositeFigi := "BBG000B9XRY4", ShareClassFigi := "", Active := true,
    CUSIP := [], ISIN := [], CIK := "", SIC := 0, ListingDate := "",
    DelistingDate := "", Industry := "", Sector := "", CorporateUrl := "",
    HeadquartersLocation := "", OtherIdentifiers := [], Tags := [],
    SimilarTickers := [], LastUpdated := 200 }

/-- C3 (evaluation of the code at the failing input): a fetched asset
whose database `last_updated` (100) predates the freshly fetched
`LastUpdated` (200) is NOT selected for detail lookup — the code's
condition `lastUpdated.After(asset.LastUpdated)` compares in the opposite
direction from the stated staleness policy, so the stale asset is
dropped. -/
theorem filterAssets_drops_stale_asset :
    staleFetchedAsset.LastUpdated = 200 ∧
    dbAssetLookup [⟨"AAPL", "BBG000B9XRY4", some 100⟩]
      "BBG000B9XRY4" "AAPL" = some 100 ∧
    filterAssetsByLastUpdated [⟨"AAPL", "BBG000B9XRY4", some 100⟩]
      [staleFetchedAsset] = [] := by
  decide

/-! ## Polygon active/inactive reconciliation
(`polygonAssetFetcher.delistedAssets`)

The HTTP pagination of the inactive-tickers endpoint is abstracted as the
list of `polygonStock` records the loop actually processes; the per-record
logic, the deactivation bookkeeping, and the grace-period fallback are
modelled faithfully. -/

/-- The fields of a `polygonStock` record used by the inactive-ticker
loop; `LastUpdated` is the parsed `last_updated_utc` timestamp. -/
structure PolygonStock where
  Ticker : String
  CompositeFIGI : String
  DelistDate : String
  LastUpdated : Timestamp
deriving DecidableEq

/-- `strings.Split(polygonAsset.DelistDate, "T")[0]`: the leading date part
of the `delisted_utc` string (the whole string when it has no `T`). -/
def delistDatePart (s : String) : String :=
  s.takeWhile (fun ch => ch != 'T')

/-- The reconciliation key built for a polygon record:
`data.Asset{Ticker, CompositeFigi}.ID()`. -/
def stockID (s : PolygonStock) : String :=
  s.Ticker ++ ":" ++ s.CompositeFIGI

/-- The `inactive` candidate list: database-active assets whose ID is
absent from the map of freshly fetched active assets. -/
def delistCandidates (fetched dbActive : List Asset) : List Asset :=
  dbActive.filter (fun a => !(fetched.any (fun f => f.ID == a.ID)))

/-- The mutable state of the inactive-tickers scan: the contents of
`inactiveMap`, the keys of the `deactivated` map, and the assets published
so far. -/
structure InactiveScanState where
  cands : List Asset
  deactivated : List String
  published : List Asset

/-- Deactivation of a matched candidate: delisting date from the provider
response, last-updated from the provider response, active flag cleared. -/
def deactivateFromStock (c : Asset) (s : PolygonStock) : Asset :=
  { c with
    DelistingDate := delistDatePart s.DelistDate,
    LastUpdated := s.LastUpdated, Active := false }

/-- Processing of one inactive `polygonStock` record: when a candidate
with the same ID exists in `inactiveMap` it is updated in place,
deactivated, recorded in `deactivated`, and published. -/
def inactiveStockStep (figiMap : String → Option OpenFigiAsset)
    (st : InactiveScanState) (s : PolygonStock) : InactiveScanState :=
  match st.cands.find? (fun c => c.ID == stockID s) with
  | some c =>
    { cands := st.cands.map
        (fun x => if x.ID == stockID s then deactivateFromStock c s else x),
      deactivated := st.deactivated ++ [stockID s],
      published := st.published ++
        polygonPublish figiMap (deactivateFromStock c s) }
  | none => st

/-- The whole inactive-tickers scan over the records the pagination loop
processes. -/
def processInactiveStocks (figiMap : String → Option OpenFigiAsset)
    (cands : List Asset) (stocks : List PolygonStock) : InactiveScanState :=
  stocks.foldl (inactiveStockStep figiMap) ⟨cands, [], []⟩

/-- `14 * 24 * time.Hour`, in seconds. -/
def gracePeriod : Int := 14 * 24 * 60 * 60

/-- The grace-period fallback applied to one candidate after the scan:
already-deactivated candidates are skipped; an unmatched candidate is
deactivated (with `LastUpdated` set to now) and published only when more
than `gracePeriod` has passed since its last update. -/
def graceStep (figiMap : String → Option OpenFigiAsset) (now : Timestamp)
    (deactivated : List String) (a : Asset) : List Asset :=
  if a.ID ∈ deactivated then []
  else if now - a.LastUpdated > gracePeriod then
    polygonPublish figiMap { a with LastUpdated := now, Active := false }
  else []

/-- `polygonAssetFetcher.delistedAssets`: the assets published deactivated
by a full run, given the fetched active universe, the database-active
assets, the inactive records processed, and the current time. -/
def delistedPublished (figiMap : String → Option OpenFigiAsset)
    (fetched dbActive : List Asset) (stocks : List PolygonStock)
    (now : Timestamp) : List Asset :=
  let cands := delistCandidates fetched dbActive
  if cands.isEmpty then []
  else
    let st := processInactiveStocks figiMap cands stocks
    st.published ++
      (st.cands.map (graceStep figiMap now st.deactivated)).flatten

theorem inactiveScan_preserves_unmatched
    (figiMap : String → Option OpenFigiAsset) (stocks : List PolygonStock)
    (st : InactiveScanState) (a : Asset)
    (hc : a ∈ st.cands) (hd : a.ID ∉ st.deactivated)
    (hs : ∀ s ∈ stocks, stockID s ≠ a.ID) :
    a ∈ (stocks.foldl (inactiveStockStep figiMap) st).cands ∧
    a.ID ∉ (stocks.foldl (inactiveStockStep figiMap) st).deactivated := by
  induction stocks generalizing st with
  | nil => exact ⟨hc, hd⟩
  | cons s rest ih =>
    have hsid : stockID s ≠ a.ID := hs s (by simp)
    rw [List.foldl_cons]
    apply ih
    · unfold inactiveStockStep
      cases hfind : st.cands.find? (fun c => c.ID == stockID s) with
      | none => exact hc
      | some c =>
        simp only
        have hmem := List.mem_map_of_mem
          (fun x => if x.ID == stockID s then deactivateFromStock c s else x)
          hc
        have hne : (a.ID == stockID s) = false := by
          simp only [beq_eq_false_iff_ne, ne_eq]
          exact fun h => hsid h.symm
        simpa [hne] using hmem
    · unfold inactiveStockStep
      cases hfind : st.cands.find? (fun c => c.ID == stockID s) with
      | none => exact hd
      | some c =>
        simp only [List.mem_append, List.mem_singleton]
        rintro (h | h)
        · exact hd h
        · exact hsid h.symm
    · intro s' hs'
      exact hs s' (by simp [hs'])

/-- C4: reconciliation of active assets against the provider. (i) A
database-active asset absent from the fetched active universe becomes a
deactivation candidate. (ii) A candidate never matched by the inactive
listing survives the scan with its ID not deactivated. (iii) For such a
candidate (with a resolvable business key) the grace-period fallback
publishes it deactivated, with `Active = false` and `LastUpdated = now`,
exactly when more than 14 days have passed since its last update — at or
under 14 days it stays active. (iv) A candidate matched by the inactive
listing is deactivated immediately, published with the delisting date
taken from the provider response, and recorded as deactivated. -/
theorem delistedAssets_grace_period :
    (∀ (fetched dbActive : List Asset) (a : Asset),
      a ∈ dbActive → (∀ f ∈ fetched, f.ID ≠ a.ID) →
      a ∈ delistCandidates fetched dbActive) ∧
    (∀ (figiMap : String → Option OpenFigiAsset) (cands : List Asset)
      (stocks : List PolygonStock) (a : Asset),
      a ∈ cands → (∀ s ∈ stocks, stockID s ≠ a.ID) →
      a ∈ (processInactiveStocks figiMap cands stocks).cands ∧
      a.ID ∉ (processInactiveStocks figiMap cands stocks).deactivated) ∧
    (∀ (figiMap : String → Option OpenFigiAsset) (now : Timestamp)
      (deactivated : List String) (a : Asset),
      a.ID ∉ deactivated → a.CompositeFigi ≠ "" →
      a.AssetType ≠ UnknownAsset →
      graceStep figiMap now deactivated a =
        (if now - a.LastUpdated > gracePeriod then
          [{ a with
              LastUpdated := now, Active := false,
              Ticker := fixTicker a.Ticker }]
        else [])) ∧
    (∀ (figiMap : String → Option OpenFigiAsset) (st : InactiveScanState)
      (s : PolygonStock) (c : Asset),
      st.cands.find? (fun x => x.ID == stockID s) = some c →
      (inactiveStockStep figiMap st s).published =
        st.published ++ polygonPublish figiMap (deactivateFromStock c s) ∧
      (deactivateFromStock c s).Active = false ∧
      (deactivateFromStock c s).DelistingDate =
        delistDatePart s.DelistDate ∧
      (inactiveStockStep figiMap st s).deactivated =
        st.deactivated ++ [stockID s]) := by
  refine ⟨?_, ?_, ?_, ?_⟩
  · intro fetched dbActive a ha h2
    refine List.mem_filter.mpr ⟨ha, ?_⟩
    cases hany : fetched.any (fun f => f.ID == a.ID) with
    | false => simp
    | true =>
      rcases List.any_eq_true.mp hany with ⟨f, hf, hbeq⟩
      exact absurd (by simpa using hbeq) (h2 f hf)
  · intro figiMap cands stocks a hc hs
    exact inactiveScan_preserves_unmatched figiMap stocks ⟨cands, [], []⟩ a
      hc (by simp) hs
  · intro figiMap now deactivated a hd hfigi htype
    unfold graceStep
    rw [if_neg hd]
    by_cases hcross : now - a.LastUpdated > gracePeriod
    · rw [if_pos hcross, if_pos hcross]
      have henrich : enrichWith figiMap
          { a with LastUpdated := now, Active := false } =
          { a with LastUpdated := now, Active := false } := by
        unfold enrichWith
        rw [if_neg]
        simp only [Bool.and_eq_true, Bool.or_eq_true, beq_iff_eq]
        rintro ⟨h1 | h2, _⟩
        · exact hfigi h1
        · exact htype h2
      unfold polygonPublish
      rw [henrich]
      rw [if_neg (by simpa using hfigi)]
    · rw [if_neg hcross, if_neg hcross]
  · intro figiMap st s c hfind
    unfold inactiveStockStep
    rw [hfind]
    exact ⟨rfl, rfl, rfl, rfl⟩

/-- A database-active asset used as the reconciliation witness. -/
def unmatchedCandidate : Asset :=
  { Ticker := "OLD", Name := "", Description := "", PrimaryExchange := "",
    AssetType := "CS", CompositeFigi := "BBG000000001",
    ShareClassFigi := "", Active := true, CUSIP := [], ISIN := [],
    CIK := "", SIC := 0, ListingDate := "", DelistingDate := "",
    Industry := "", Sector := "", CorporateUrl := "",
    HeadquartersLocation := "", OtherIdentifiers := [], Tags := [],
    SimilarTickers := [], LastUpdated := 0 }

/-- An inactive-listing record whose key matches `unmatchedCandidate`. -/
def matchingStock : PolygonStock :=
  { Ticker := "OLD", CompositeFIGI := "BBG000000001",
    DelistDate := "2020-01-01T00:00:00Z", LastUpdated := 50 }

/-- Witness for C4 at a concrete candidate, an empty fetched universe, an
empty (respectively matching) inactive listing, and a current time just
past the grace period. -/
theorem delistedAssets_grace_period_witness :
    unmatchedCandidate ∈ delistCandidates [] [unmatchedCandidate] ∧
    (unmatchedCandidate ∈
        (processInactiveStocks (fun _ => none) [unmatchedCandidate]
          []).cands ∧
      unmatchedCandidate.ID ∉
        (processInactiveStocks (fun _ => none) [unmatchedCandidate]
          []).deactivated) ∧
    graceStep (fun _ => none) (gracePeriod + 1) [] unmatchedCandidate =
      (if gracePeriod + 1 - unmatchedCandidate.LastUpdated > gracePeriod then
        [{ unmatchedCandidate with
            LastUpdated := gracePeriod + 1, Active := false,
            Ticker := fixTicker unmatchedCandidate.Ticker }]
      else []) ∧
    ((inactiveStockStep (fun _ => none)
        ⟨[unmatchedCandidate], [], []⟩ matchingStock).published =
      [] ++ polygonPublish (fun _ => none)
        (deactivateFromStock unmatchedCandidate matchingStock) ∧
      (deactivateFromStock unmatchedCandidate matchingStock).Active =
        false ∧
      (deactivateFromStock unmatchedCandidate matchingStock).DelistingDate =
        delistDatePart matchingStock.DelistDate ∧
      (inactiveStockStep (fun _ => none)
        ⟨[unmatchedCandidate], [], []⟩ matchingStock).deactivated =
        [] ++ [stockID matchingStock]) :=
  ⟨delistedAssets_grace_period.1 [] [unmatchedCandidate]
      unmatchedCandidate (by simp) (by simp),
    delistedAssets_grace_period.2.1 (fun _ => none) [unmatchedCandidate]
      [] unmatchedCandidate (by simp) (by simp),
    delistedAssets_grace_period.2.2.1 (fun _ => none) (gracePeriod + 1)
      [] unmatchedCandidate (by simp) (by decide) (by decide),
    delistedAssets_grace_period.2.2.2 (fun _ => none)
      ⟨[unmatchedCandidate], [], []⟩ matchingStock unmatchedCandidate
      (by decide)⟩

/-! ## Polygon pagination rate-limit discipline
(`polygonAssetFetcher.assets`) -/

/-- The requests-per-minute budget actually used: the configured value, or
the hardcoded default 5000 when the configured value is non-positive. -/
def effectiveRateLimit (rateLimit : Int) : Int :=
  if rateLimit ≤ 0 then 5000 else rateLimit

/-- The token-bucket rate handed to `rate.NewLimiter`:
`float64(rateLimit) / float64(61)` tokens per second (with burst 1). -/
def polygonLimiterRate (rateLimit : Int) : ℚ :=
  (effectiveRateLimit rateLimit : ℚ) / 61

/-- The limiter/network events of a paginated fetch. -/
inductive ApiEvent where
  | wait : ApiEvent
  | request : ApiEvent
deriving DecidableEq

/-- One page of a paginated polygon response, abstracted to the fields the
loop branches on: HTTP status, whether `results` unmarshals, and the
`next_url` cursor (empty string = done). -/
structure PolygonPage where
  statusCode : Nat
  parseOk : Bool
  next : String

/-- The cursor-follow loop of `polygonAssetFetcher.assets` (bounded by
`maxQueries`): a bad status or unmarshal failure aborts, an empty cursor
ends the walk, and otherwise the next request is issued after a
`limiter.Wait`, consuming the next pending response. -/
def assetsPageLoop : Nat → PolygonPage → List PolygonPage → List ApiEvent
  | 0, _, _ => []
  | fuel + 1, resp, pending =>
    if 300 ≤ resp.statusCode then []
    else if !resp.parseOk then []
    else if resp.next == "" then []
    else
      ApiEvent.wait :: ApiEvent.request ::
        (match pending with
          | [] => []
          | p :: ps => assetsPageLoop fuel p ps)

/-- The full wait/request trace of `polygonAssetFetcher.assets` for one
asset type: an initial `limiter.Wait` then the first-page request, then
the cursor loop with `maxQueries = 1000`. -/
def assetsTrace (first : PolygonPage) (pending : List PolygonPage) :
    List ApiEvent :=
  ApiEvent.wait :: ApiEvent.request :: assetsPageLoop 1000 first pending

/-- Every `request` event is immediately preceded by a `wait` event. -/
def requestsGuarded : List ApiEvent → Bool
  | [] => true
  | ApiEvent.wait :: ApiEvent.request :: rest => requestsGuarded rest
  | ApiEvent.wait :: rest => requestsGuarded rest
  | ApiEvent.request :: _ => false

theorem assetsPageLoop_guarded (fuel : Nat) (resp : PolygonPage)
    (pending : List PolygonPage) :
    requestsGuarded (assetsPageLoop fuel resp pending) = true := by
  induction fuel generalizing resp pending with
  | zero => rfl
  | succ fuel ih =>
    unfold assetsPageLoop
    split
    · rfl
    · split
      · rfl
      · split
        · rfl
        · cases pending with
          | nil => rfl
          | cons p ps =>
            simpa [requestsGuarded] using ih p ps

/-- C7: in the Stock Tickers fetch, every paginated request — the first
page and every cursor-follow request — is preceded by a wait on the
token-bucket limiter, whose rate is the configured `rateLimit` divided by
61, with `rateLimit` replaced by the hardcoded default 5000 when the
configured value is non-positive. -/
theorem stock_tickers_rate_limited :
    (∀ (first : PolygonPage) (pending : List PolygonPage),
      requestsGuarded (assetsTrace first pending) = true) ∧
    (∀ rateLimit : Int,
      polygonLimiterRate rateLimit =
        (if rateLimit ≤ 0 then (5000 : ℚ) else (rateLimit : ℚ)) / 61) := by
  constructor
  · intro first pending
    simpa [assetsTrace, requestsGuarded] using
      assetsPageLoop_guarded 1000 first pending
  · intro rateLimit
    unfold polygonLimiterRate effectiveRateLimit
    split_ifs <;> simp

/-! ## Run-summary discipline of the Polygon fetch closures
(`Polygon.Datasets` in `src/provider/polygon.go`)

Both fetch closures register `defer func() { ...; exitNotification <-
runSummary }()` before any conditional branch, so the summary is sent
exactly once when the closure unwinds — on normal return, on every early
`return`, and on the `logger.Panic()` paths (deferred functions run during
panic unwinding).  The environments below enumerate the outcomes of the
external steps each closure branches on; the models return the number of
summaries sent, the observation count the summary carries, and the exit
path taken. -/

/-- Exit paths of a fetch closure. -/
inductive FetchExit where
  | ok : FetchExit
  | configError : FetchExit
  | panicked : FetchExit
  | httpError : FetchExit
  | badStatus : FetchExit
  | recordError : FetchExit
deriving DecidableEq

/-- A raw market-holiday record, abstracted to the parse outcomes its loop
iteration branches on: whether the `date` field parses, and the close-time
field (`none` = empty string, so the default close is used; `some ok` =
present, with RFC3339 parse success `ok`). -/
structure RawHoliday where
  dateOk : Bool
  close : Option Bool

/-- The holiday loop: a record whose date fails to parse is skipped
(`continue`); a record with a non-empty close time that fails to parse
aborts the whole fetch (`return`); other records are emitted.  Result:
(number of records emitted after this point, aborted?). -/
def processHolidays : List RawHoliday → Nat × Bool
  | [] => (0, false)
  | h :: rest =>
    if !h.dateOk then processHolidays rest
    else
      match h.close with
      | some false => (0, true)
      | _ =>
        ((processHolidays rest).1 + 1, (processHolidays rest).2)

/-- The environment of one Market Holidays fetch: the `strconv.Atoi`
result for the `rateLimit` config value, timezone-load success,
rate-limiter wait success, HTTP success, HTTP status, and the decoded
records. -/
structure HolidaysEnv where
  rateLimitParse : Option Int
  tzOk : Bool
  waitOk : Bool
  httpOk : Bool
  statusCode : Nat
  holidays : List RawHoliday

/-- The Market Holidays `Fetch` closure.  The deferred summary send is the
first statement after the slice allocations, so every path below returns
through it: result is (summaries sent, observations emitted, exit path).
The summary's `NumObservations` is `len(holidays)`, which the source never
appends to, so it is always 0. -/
def marketHolidaysFetch (env : HolidaysEnv) : Nat × Nat × FetchExit :=
  match env.rateLimitParse with
  | none => (1, 0, FetchExit.configError)
  | some _ =>
    if !env.tzOk then (1, 0, FetchExit.panicked)
    else if !env.waitOk then (1, 0, FetchExit.panicked)
    else if !env.httpOk then (1, 0, FetchExit.httpError)
    else if 300 ≤ env.statusCode then (1, 0, FetchExit.badStatus)
    else if (processHolidays env.holidays).2 then
      (1, (processHolidays env.holidays).1, FetchExit.recordError)
    else (1, (processHolidays env.holidays).1, FetchExit.ok)

/-- The environment of one Stock Tickers fetch: the `rateLimit` parse
result, the outcome of `api.assets` for each of the three asset types, the
outcome of `filterAssetsByLastUpdated`, and whether `delistedAssets`
succeeds. -/
structure TickersEnv where
  rateLimitParse : Option Int
  csAssets : Except Unit (List Asset)
  adrcAssets : Except Unit (List Asset)
  etfAssets : Except Unit (List Asset)
  filterOutcome : Except Unit (List Asset)
  delistedOk : Bool

/-- The Stock Tickers `Fetch` closure: every early `return` (config error,
asset-list error for any asset type, filter error, delisted-scan error)
and the normal return all pass through the deferred summary send; the
summary carries `len(assetDetail)`. -/
def stockTickersFetch (env : TickersEnv) : Nat × Nat × FetchExit :=
  match env.rateLimitParse with
  | none => (1, 0, FetchExit.configError)
  | some _ =>
    match env.csAssets with
    | Except.error _ => (1, 0, FetchExit.httpError)
    | Except.ok _ =>
      match env.adrcAssets with
      | Except.error _ => (1, 0, FetchExit.httpError)
      | Except.ok _ =>
        match env.etfAssets with
        | Except.error _ => (1, 0, FetchExit.httpError)
        | Except.ok _ =>
          match env.filterOutcome with
          | Except.error _ => (1, 0, FetchExit.httpError)
          | Except.ok assetDetail =>
            if env.delistedOk then
              (1, assetDetail.length, FetchExit.ok)
            else
              (1, assetDetail.length, FetchExit.httpError)

/-- C6: every invocation of a Polygon fetch closure sends exactly one
`RunSummary` on the completion channel on every exit path, including early
returns for configuration errors, HTTP errors, and partial failures. -/
theorem fetch_sends_one_run_summary :
    (∀ env : HolidaysEnv, (marketHolidaysFetch env).1 = 1) ∧
    (∀ env : TickersEnv, (stockTickersFetch env).1 = 1) := by
  constructor
  · intro env
    obtain ⟨rl, tz, wa, ht, sc, hol⟩ := env
    unfold marketHolidaysFetch
    cases rl with
    | none => rfl
    | some v =>
      simp only
      split_ifs <;> rfl
  · intro env
    obtain ⟨rl, cs, adrc, etf, filt, del⟩ := env
    unfold stockTickersFetch
    cases rl with
    | none => rfl
    | some v =>
      cases cs with
      | error e => rfl
      | ok csl =>
        cases adrc with
        | error e => rfl
        | ok adrcl =>
          cases etf with
          | error e => rfl
          | ok etfl =>
            cases filt with
            | error e => rfl
            | ok detail =>
              cases del <;> rfl

end PvData
